import Mathlib

/-!
Shallow embedding of the GhostPeer chunked encrypted file-transfer core
(`FileTransferService`, second revision in the sources: 4 KB chunks, a
received-chunk buffer, fallback transfer matching and file reconstruction),
together with the encryption utilities (`EncryptionService`).

Machine numbers: byte values are `ZMod 256`; sizes and indices are `Nat`;
JavaScript floating-point quantities (progress, speed, timestamps) are
modelled with exact rationals `ℚ`.
-/

namespace GhostPeer

/-- A byte value, as carried in `Uint8Array` / `ArrayBuffer` cells. -/
abbrev Byte := ZMod 256

namespace EncryptionService

/-- Modelled from the spec: the checksum digest (`generateChecksum`, which in
the source delegates to the platform's SHA-256 via `crypto.subtle.digest`).
The spec only requires a collision-resistant content digest used for
whole-file and per-chunk integrity; it is modelled here by the injective
digest that is the content itself. -/
def generateChecksum (data : List Byte) : List Byte := data

/-- Source `EncryptionService.verifyChecksum`: recompute the digest of the
data and compare with the declared digest. -/
def verifyChecksum (data : List Byte) (checksum : List Byte) : Bool :=
  generateChecksum data == checksum

/-- Modelled from the spec: the per-(key, iv) keystream of the AEAD cipher
(`crypto.subtle.encrypt` with AES-GCM is platform code, absent from the
repository; the spec requires an AEAD whose decryption inverts encryption
under the same key and nonce). -/
def keyStreamByte (key iv : List Byte) : Byte := key.sum + iv.sum

/-- Modelled from the spec: the authentication tag appended to the
ciphertext by the AEAD cipher; checked by `decrypt`. -/
def authTag (key iv data : List Byte) : Byte := key.sum + iv.sum + data.sum

/-- Source `EncryptionService.encrypt` (AES-GCM via the platform, modelled
from the spec as an AEAD stand-in): returns the ciphertext together with the
iv used. The caller supplies the freshly drawn random iv explicitly. -/
def encrypt (data : List Byte) (key : List Byte) (iv : List Byte) :
    List Byte × List Byte :=
  (data.map (fun b => b + keyStreamByte key iv) ++ [authTag key iv data], iv)

/-- Source `EncryptionService.decrypt` (AES-GCM via the platform, modelled
from the spec): strips and checks the authentication tag, failing (`none`,
the model of the thrown `DecryptionError`) on mismatch, and inverts the
keystream otherwise. -/
def decrypt (ciphertext : List Byte) (key : List Byte) (iv : List Byte) :
    Option (List Byte) :=
  let body := ciphertext.dropLast
  let plain := body.map (fun b => b - keyStreamByte key iv)
  if ciphertext.getLast? = some (authTag key iv plain) then some plain else none

/-- Hexadecimal digit character for a value below 16. -/
def toHexChar (n : Nat) : Char :=
  if n < 10 then Char.ofNat (48 + n) else Char.ofNat (87 + n)

/-- Parse one hexadecimal digit character. -/
def fromHexChar (c : Char) : Option Nat :=
  let n := c.toNat
  if 48 ≤ n ∧ n ≤ 57 then some (n - 48)
  else if 97 ≤ n ∧ n ≤ 102 then some (n - 87) else none

/-- Modelled from the spec: `exportKey` serializes the raw key bytes to text
(the source exports the raw AES key via the platform and base64-encodes it
with `btoa`; the spec requires only an exact reversible serialization).
Modelled as hexadecimal text over the raw key bytes. -/
def exportKey (key : List Byte) : String :=
  String.mk (key.flatMap (fun b => [toHexChar (b.val / 16), toHexChar (b.val % 16)]))

/-- Decode a hexadecimal character list two characters at a time. -/
def importKeyAux : List Char → Option (List Byte)
  | [] => some []
  | c1 :: c2 :: rest => do
      let hi ← fromHexChar c1
      let lo ← fromHexChar c2
      let tail ← importKeyAux rest
      some (((hi * 16 + lo : Nat) : Byte) :: tail)
  | [_] => none

/-- Modelled from the spec: `importKey` parses the text serialization back
into raw key bytes (source: `atob` then platform raw-key import; the spec
requires `importKey (exportKey k)` to behave identically to `k`). -/
def importKey (s : String) : Option (List Byte) := importKeyAux s.data

end EncryptionService

/-- The `FileTransfer.status` values. -/
inductive TransferStatus
  | pending
  | transferring
  | paused
  | completed
  | failed
deriving DecidableEq

/-- The browser `File` object, reduced to the fields the service reads:
`name`, `size` and the byte content addressed by `file.slice`. On the
receiving side the `file` field of a transfer is built from `transfer-start`
metadata, so `size` is kept as its own field rather than derived. -/
structure FileModel where
  name : String
  size : Nat
  content : List Byte
deriving DecidableEq

/-- Source `FileTransfer` record (types/index.ts). -/
structure FileTransfer where
  id : String
  file : FileModel
  status : TransferStatus
  progress : ℚ
  speed : ℚ
  startTime : ℚ
  encryptionKey : List Byte
  checksum : List Byte
  peerId : String
deriving DecidableEq

/-- Lookup in an insertion-ordered map (JavaScript `Map.get`). -/
def mapGet {α : Type} (m : List (String × α)) (k : String) : Option α :=
  (m.find? (fun p => p.1 == k)).map (fun p => p.2)

/-- Insertion-ordered map update (JavaScript `Map.set`): an existing key is
updated in place, a new key is appended. -/
def mapSet {α : Type} : List (String × α) → String → α → List (String × α)
  | [], k, v => [(k, v)]
  | (k', v') :: rest, k, v =>
      if k' == k then (k, v) :: rest else (k', v') :: mapSet rest k v

/-- Insertion-ordered map removal (JavaScript `Map.delete`). -/
def mapDelete {α : Type} (m : List (String × α)) (k : String) :
    List (String × α) :=
  m.filter (fun p => !(p.1 == k))

/-- JavaScript sparse-array element assignment `a[k] = v`: the array length
becomes `max (a.length) (k+1)`, with holes (`none`) between the old end and
`k`. -/
def sparseSet {α : Type} (l : List (Option α)) (k : Nat) (v : α) :
    List (Option α) :=
  if k < l.length then l.set k (some v)
  else l ++ List.replicate (k - l.length) none ++ [some v]

/-- The two wire messages (§4.2). Per the spec the binary-to-text encoding of
ciphertext and iv is an implementation freedom ("a binary-channel
implementation may skip the text encoding and send raw bytes directly"), so
the chunk payload fields carry the raw bytes. -/
inductive WireMessage
  | transferStart (transferId fileName : String) (fileSize totalChunks : Nat)
      (encryptionKey : String) (checksum : List Byte)
  | fileChunk (transferId : String) (chunkIndex : Nat)
      (encryptedData : List Byte) (iv : List Byte) (checksum : List Byte)
      (isLastChunk : Bool)
deriving DecidableEq

/-- Calls made to the three registered callbacks and to the download
collaborator, recorded as an event trace. `onProgress` records the snapshot's
progress and speed fields. -/
inductive TransferEvent
  | onProgress (transferId : String) (progress speed : ℚ)
  | onComplete (transferId : String)
  | onError (transferId : String) (message : String)
  | download (fileName : String) (bytes : List Byte)
deriving DecidableEq

/-- The destructured fields of an incoming `file-chunk` message. -/
structure IncomingChunk where
  transferId : String
  chunkIndex : Nat
  encryptedData : List Byte
  iv : List Byte
  checksum : List Byte
  isLastChunk : Bool
deriving DecidableEq

/-- The mutable fields of `FileTransferService`: the transfer registry, the
set of transfer ids with registered callback triples, and the received-chunk
buffers. -/
structure ServiceState where
  activeTransfers : List (String × FileTransfer)
  callbackIds : List String
  receivedChunks : List (String × List (Option (List Byte)))
deriving DecidableEq

/-- Result of a `sendFileChunks` call: the final service state, every message
passed to the send function in order, the callback events fired, and the
error thrown (non-`none` only for the unknown-transfer throw, which happens
before any mutation). -/
structure SendResult where
  state : ServiceState
  sent : List WireMessage
  events : List TransferEvent
  thrown : Option String
deriving DecidableEq

/-- Source `FileTransferService.CHUNK_SIZE` = 4 * 1024 (4 KB chunks). -/
def CHUNK_SIZE : Nat := 4 * 1024

/-- Sender-side `totalChunks` (sendFileChunks, line 287):
`Math.ceil(file.size / CHUNK_SIZE)`; the ceiling division is written in
natural-number arithmetic, and `senderTotalChunks_eq_ceil` below proves it
equal to the exact-arithmetic reading `⌈size / CHUNK_SIZE⌉` of the source
expression. -/
def senderTotalChunks (size : Nat) : Nat :=
  (size + CHUNK_SIZE - 1) / CHUNK_SIZE

/-- Receiver-side `totalChunks` (handleIncomingChunk, line 411):
`Math.ceil(transfer.file.size / CHUNK_SIZE)`. -/
def receiverTotalChunks (size : Nat) : Nat :=
  (size + CHUNK_SIZE - 1) / CHUNK_SIZE

/-- Source `calculateTransferSpeed`: elapsed wall-clock seconds since the
transfer's `startTime`; zero when no positive time has elapsed. `now` is the
`Date.now()` reading at the call. -/
def calculateTransferSpeed (t : FileTransfer) (now : ℚ)
    (bytesTransferred : Nat) : ℚ :=
  let elapsedTime := (now - t.startTime) / 1000
  if 0 < elapsedTime then (bytesTransferred : ℚ) / elapsedTime else 0

/-- Source `handleTransferError`: if the id resolves, mark the transfer
`failed` and fire the error callback when one is registered. -/
def handleTransferError (st : ServiceState) (transferId : String)
    (error : String) : ServiceState × List TransferEvent :=
  match mapGet st.activeTransfers transferId with
  | none => (st, [])
  | some t =>
      ({ st with activeTransfers :=
            mapSet st.activeTransfers transferId { t with status := .failed } },
       if st.callbackIds.contains transferId then
         [.onError transferId error] else [])

/-- The `file-chunk` message built for chunk index `i` in the send loop
(lines 313–337): the byte window is
`[i*CHUNK_SIZE, min (i*CHUNK_SIZE + CHUNK_SIZE) size)` of the file, the
payload is its encryption under the transfer key and the iv drawn for this
chunk, and `isLastChunk` holds exactly when `i = totalChunks - 1`. -/
def chunkMessageOf (transferId : String) (file : FileModel)
    (encryptionKey : List Byte) (ivFor : Nat → List Byte)
    (totalChunks i : Nat) : WireMessage :=
  let lo := i * CHUNK_SIZE
  let hi := min (lo + CHUNK_SIZE) file.size
  let chunkData := (file.content.drop lo).take (hi - lo)
  WireMessage.fileChunk transferId i
    (EncryptionService.encrypt chunkData encryptionKey (ivFor i)).1
    (ivFor i)
    (EncryptionService.generateChecksum chunkData)
    (decide (i = totalChunks - 1))

/-- The progress value written after chunk index `j` is handled:
`((j+1) / totalChunks) * 100` (sender: `sentChunks = j+1`; receiver:
`chunkIndex + 1`). -/
def progressOf (totalChunks j : Nat) : ℚ :=
  (((j + 1 : Nat) : ℚ) / (totalChunks : ℚ)) * 100

/-- The transfer snapshot after the progress/speed update for chunk index
`j` of the send loop. -/
def updT (t : FileTransfer) (totalChunks : Nat) (timeAt : Nat → ℚ)
    (j : Nat) : FileTransfer :=
  { t with progress := progressOf totalChunks j,
           speed := calculateTransferSpeed t (timeAt j) ((j + 1) * CHUNK_SIZE) }

/-- The code after the send loop (lines 351–354): if the status survived as
`transferring`, mark `completed` and fire the completion callback. -/
def finishSend (transferId : String) (st : ServiceState) (t : FileTransfer)
    (msgs : List WireMessage) (evs : List TransferEvent) : SendResult :=
  if t.status = .transferring then
    ⟨{ st with activeTransfers :=
          mapSet st.activeTransfers transferId { t with status := .completed } },
     msgs,
     evs ++ (if st.callbackIds.contains transferId then
               [.onComplete transferId] else []),
     none⟩
  else ⟨st, msgs, evs, none⟩

/-- The chunk loop of `sendFileChunks` (lines 308–349), recursing on the
number of remaining chunk indices; `i` is the next index. `pausedObs i`
abstracts the interleaving of `pauseTransfer`: it is true exactly when the
per-chunk status check at index `i` observes `paused` (in which case the
transfer's status in the registry has been set to `paused` by that call).
`ivFor i` is the random iv drawn when encrypting chunk `i`, and `timeAt i`
the `Date.now()` reading at its speed update. -/
def sendLoop (transferId : String) (sendFn : WireMessage → Bool)
    (pausedObs : Nat → Bool) (ivFor : Nat → List Byte) (timeAt : Nat → ℚ)
    (totalChunks : Nat) :
    Nat → Nat → ServiceState → FileTransfer → List WireMessage →
    List TransferEvent → SendResult
  | _, 0, st, t, msgs, evs => finishSend transferId st t msgs evs
  | i, r + 1, st, t, msgs, evs =>
    if pausedObs i then
      let t' := { t with status := TransferStatus.paused }
      finishSend transferId
        { st with activeTransfers := mapSet st.activeTransfers transferId t' }
        t' msgs evs
    else
      let msg := chunkMessageOf transferId t.file t.encryptionKey ivFor
        totalChunks i
      if sendFn msg then
        let t' := updT t totalChunks timeAt i
        let m' := mapSet st.activeTransfers transferId t'
        let st' := { st with activeTransfers := m' }
        let evs' := evs ++ (if st.callbackIds.contains transferId then
          [TransferEvent.onProgress transferId t'.progress t'.speed] else [])
        sendLoop transferId sendFn pausedObs ivFor timeAt totalChunks
          (i + 1) r st' t' (msgs ++ [msg]) evs'
      else
        let r := handleTransferError st transferId
          ("Failed to send chunk " ++ toString i)
        ⟨r.1, msgs ++ [msg], evs ++ r.2, none⟩

/-- Source `sendFileChunks` (lines 276–355): throws `Transfer not found` for
an unknown id before any mutation; otherwise marks the transfer
`transferring`, sends the `transfer-start` metadata (failing over to
`handleTransferError` if the channel refuses it), then runs the chunk loop. -/
def sendFileChunks (st : ServiceState) (transferId : String)
    (sendFn : WireMessage → Bool) (pausedObs : Nat → Bool)
    (ivFor : Nat → List Byte) (timeAt : Nat → ℚ) : SendResult :=
  match mapGet st.activeTransfers transferId with
  | none => ⟨st, [], [], some "Transfer not found"⟩
  | some t0 =>
    let t1 := { t0 with status := TransferStatus.transferring }
    let m1 := mapSet st.activeTransfers transferId t1
    let st1 := { st with activeTransfers := m1 }
    let totalChunks := senderTotalChunks t1.file.size
    let metadata := WireMessage.transferStart transferId t1.file.name
      t1.file.size totalChunks (EncryptionService.exportKey t1.encryptionKey)
      t1.checksum
    if sendFn metadata then
      sendLoop transferId sendFn pausedObs ivFor timeAt totalChunks
        0 totalChunks st1 t1 [metadata] []
    else
      let r := handleTransferError st1 transferId
        "Failed to send transfer metadata"
      ⟨r.1, [metadata], r.2, none⟩

/-- The concatenation loop of `reconstructFile` (lines 534–542): walks the
sparse chunk array in index order; reading `byteLength` of a hole throws a
`TypeError` (modelled as the error value), which aborts reconstruction. -/
def concatChunks : List (Option (List Byte)) → Except String (List Byte)
  | [] => Except.ok []
  | none :: _ => Except.error "TypeError: missing chunk"
  | some c :: rest => (concatChunks rest).map (fun tail => c ++ tail)

/-- Source `reconstructFile` (lines 528–545): fails when no chunk buffer is
registered for the id, otherwise concatenates the buffer in index order. -/
def reconstructFile (st : ServiceState) (transferId : String) :
    Except String (List Byte) :=
  match mapGet st.receivedChunks transferId with
  | none => Except.error "No chunks found for transfer"
  | some chunks => concatChunks chunks

/-- The body of `handleIncomingChunk` after a transfer has been resolved
(lines 387–441): decrypt, verify the chunk checksum, store the plaintext in
the sparse chunk buffer, update progress/speed, and on `isLastChunk`
reconstruct, hand the bytes to the download collaborator, complete and
discard the buffer. Any failure inside is routed to `handleTransferError`
(the source `try/catch`). -/
def processFoundChunk (st : ServiceState) (t : FileTransfer)
    (msg : IncomingChunk) (now : ℚ) : ServiceState × List TransferEvent :=
  let tid := msg.transferId
  match EncryptionService.decrypt msg.encryptedData t.encryptionKey msg.iv with
  | none =>
      handleTransferError st tid
        ("Failed to process chunk " ++ toString msg.chunkIndex
          ++ ": DecryptionError")
  | some decryptedData =>
    if !(EncryptionService.verifyChecksum decryptedData msg.checksum) then
      handleTransferError st tid
        ("Checksum verification failed for chunk " ++ toString msg.chunkIndex)
    else
      let chunks0 := (mapGet st.receivedChunks tid).getD []
      let chunks1 := sparseSet chunks0 msg.chunkIndex decryptedData
      let rc1 := mapSet st.receivedChunks tid chunks1
      let st1 := { st with receivedChunks := rc1 }
      let totalChunks := receiverTotalChunks t.file.size
      let sp := calculateTransferSpeed t now ((msg.chunkIndex + 1) * CHUNK_SIZE)
      let t' := { t with progress := progressOf totalChunks msg.chunkIndex,
                         speed := sp }
      let m2 := mapSet st1.activeTransfers tid t'
      let st2 := { st1 with activeTransfers := m2 }
      let evs := if st2.callbackIds.contains tid then
        [TransferEvent.onProgress tid t'.progress t'.speed] else []
      if msg.isLastChunk then
        match reconstructFile st2 tid with
        | Except.error e =>
            let r := handleTransferError st2 tid
              ("Failed to process chunk " ++ toString msg.chunkIndex
                ++ ": " ++ e)
            (r.1, evs ++ r.2)
        | Except.ok bytes =>
            let t'' := { t' with status := TransferStatus.completed }
            let st3 := { st2 with
              activeTransfers := mapSet st2.activeTransfers tid t'',
              receivedChunks := mapDelete st2.receivedChunks tid }
            (st3,
             evs ++ [TransferEvent.download t.file.name bytes]
                 ++ (if st2.callbackIds.contains tid then
                       [TransferEvent.onComplete tid] else []))
      else (st2, evs)

/-- Source `handleIncomingChunk` (lines 357–442): resolve the transfer by id;
when absent, the fallback-matching step (lines 367–382) takes the first
registered transfer whose status is `transferring` (in registry insertion
order), re-keys it under the incoming id, and proceeds; when no such
transfer exists the chunk is dropped. -/
def handleIncomingChunk (st : ServiceState) (msg : IncomingChunk) (now : ℚ) :
    ServiceState × List TransferEvent :=
  match mapGet st.activeTransfers msg.transferId with
  | some t => processFoundChunk st t msg now
  | none =>
    match (st.activeTransfers.map (fun p => p.2)).find?
        (fun t => decide (t.status = TransferStatus.transferring)) with
    | none => (st, [])
    | some tf =>
        let tf' := { tf with id := msg.transferId }
        let m' := mapSet (mapDelete st.activeTransfers tf.id) msg.transferId tf'
        let st' := { st with activeTransfers := m' }
        processFoundChunk st' tf' msg now

/-- Source `pauseTransfer` (lines 444–449): sets `paused` only from
`transferring`. -/
def pauseTransfer (st : ServiceState) (transferId : String) : ServiceState :=
  match mapGet st.activeTransfers transferId with
  | some t =>
      if t.status = TransferStatus.transferring then
        let t' := { t with status := TransferStatus.paused }
        { st with activeTransfers := mapSet st.activeTransfers transferId t' }
      else st
  | none => st

/-- Source `resumeTransfer` (lines 451–456): sets `transferring` only from
`paused`. -/
def resumeTransfer (st : ServiceState) (transferId : String) : ServiceState :=
  match mapGet st.activeTransfers transferId with
  | some t =>
      if t.status = TransferStatus.paused then
        let t' := { t with status := TransferStatus.transferring }
        { st with activeTransfers := mapSet st.activeTransfers transferId t' }
      else st
  | none => st

/-- Source `cancelTransfer` (lines 458–465): marks the (about to be dropped)
transfer object `failed`, then deletes the transfer entry and its callbacks.
The `receivedChunks` buffer is not touched. -/
def cancelTransfer (st : ServiceState) (transferId : String) : ServiceState :=
  match mapGet st.activeTransfers transferId with
  | some _ =>
      { st with
        activeTransfers := mapDelete st.activeTransfers transferId,
        callbackIds := st.callbackIds.filter (fun s => !(s == transferId)) }
  | none => st

lemma mapGet_mapSet_self {α : Type} (m : List (String × α)) (k : String)
    (v : α) : mapGet (mapSet m k v) k = some v := by
  induction m with
  | nil => simp [mapGet, mapSet]
  | cons p rest ih =>
      obtain ⟨k', v'⟩ := p
      by_cases h : k' == k
      · simp [mapSet, h, mapGet]
      · simp only [mapSet, h, if_neg]
        simpa [mapGet, List.find?, h] using ih

lemma mapSet_mapSet {α : Type} (m : List (String × α)) (k : String)
    (v w : α) : mapSet (mapSet m k v) k w = mapSet m k w := by
  induction m with
  | nil => simp [mapSet]
  | cons p rest ih =>
      obtain ⟨k', v'⟩ := p
      by_cases h : k' == k
      · simp [mapSet, h]
      · simp [mapSet, h, ih]

/-- The natural-number ceiling division used for `totalChunks` agrees with the
exact mathematical reading `⌈size / CHUNK_SIZE⌉` of the source expression
`Math.ceil(file.size / CHUNK_SIZE)`. -/
lemma senderTotalChunks_eq_ceil (S : ℕ) :
    (senderTotalChunks S : ℤ) = ⌈(S : ℚ) / ((CHUNK_SIZE : ℕ) : ℚ)⌉ := by
  have hcast : (S : ℚ) / ((CHUNK_SIZE : ℕ) : ℚ)
      = ((S : ℤ) : ℚ) / ((CHUNK_SIZE : ℕ) : ℚ) := by push_cast; ring
  have hneg : (-(((S : ℤ) : ℚ) / ((CHUNK_SIZE : ℕ) : ℚ)))
      = (((-(S : ℤ)) : ℤ) : ℚ) / ((CHUNK_SIZE : ℕ) : ℚ) := by push_cast; ring
  have hceil : ⌈((S : ℤ) : ℚ) / ((CHUNK_SIZE : ℕ) : ℚ)⌉
      = -(((-(S : ℤ)) : ℤ) / (CHUNK_SIZE : ℤ)) := by
    rw [show ⌈((S : ℤ) : ℚ) / ((CHUNK_SIZE : ℕ) : ℚ)⌉
        = -⌊-(((S : ℤ) : ℚ) / ((CHUNK_SIZE : ℕ) : ℚ))⌋ by
      rw [Int.floor_neg]; ring]
    rw [hneg, Rat.floor_intCast_div_natCast]
  rw [hcast, hceil]
  unfold senderTotalChunks CHUNK_SIZE
  omega

/-- The receiver infers `totalChunks` by the same expression as the sender. -/
lemma receiverTotalChunks_eq_sender (S : ℕ) :
    receiverTotalChunks S = senderTotalChunks S := rfl

namespace EncryptionService

/-- AEAD round trip of the modelled cipher: decryption under the same key
and iv recovers the plaintext. -/
lemma decrypt_encrypt (p key iv : List Byte) :
    decrypt (encrypt p key iv).1 key iv = some p := by
  have hbody : ((p.map (fun b => b + keyStreamByte key iv)) ++
      [authTag key iv p]).dropLast = p.map (fun b => b + keyStreamByte key iv) := by
    simp
  have hlast : ((p.map (fun b => b + keyStreamByte key iv)) ++
      [authTag key iv p]).getLast? = some (authTag key iv p) :=
    List.getLast?_concat _
  have hinv : (p.map (fun b => b + keyStreamByte key iv)).map
      (fun b => b - keyStreamByte key iv) = p := by
    rw [List.map_map]
    have : ((fun b => b - keyStreamByte key iv) ∘
        (fun b => b + keyStreamByte key iv)) = id := by
      funext b
      simp
    rw [this, List.map_id]
  simp [decrypt, encrypt, hbody, hinv, hlast]

/-- Each hexadecimal digit character decodes back to its value. -/
lemma fromHexChar_toHexChar : ∀ n : Fin 16,
    fromHexChar (toHexChar n.val) = some n.val := by decide

/-- Helper: decoding the hex serialization of a single byte prepended to an
already-decodable tail. -/
lemma importKeyAux_cons (b : Byte) (rest : List Char) (tail : List Byte)
    (h : importKeyAux rest = some tail) :
    importKeyAux (toHexChar (b.val / 16) :: toHexChar (b.val % 16) :: rest)
      = some (b :: tail) := by
  have hb : b.val < 256 := b.val_lt
  have hhi : b.val / 16 < 16 := by omega
  have hlo : b.val % 16 < 16 := by omega
  have h1 := fromHexChar_toHexChar ⟨b.val / 16, hhi⟩
  have h2 := fromHexChar_toHexChar ⟨b.val % 16, hlo⟩
  simp only [importKeyAux, h1, h2, h, Option.bind_some, Option.bind_eq_bind,
    Option.some_bind]
  rw [show b.val / 16 * 16 + b.val % 16 = b.val by omega,
    ZMod.natCast_rightInverse b]

/-- Exact key-serialization round trip: `importKey (exportKey k) = k`. -/
lemma importKey_exportKey (key : List Byte) :
    importKey (exportKey key) = some key := by
  unfold importKey exportKey
  induction key with
  | nil => rfl
  | cons b rest ih =>
      simpa [List.flatMap_cons] using importKeyAux_cons b _ rest ih

end EncryptionService

/-- Registry update of one transfer entry, used to phrase the theorems. -/
@[reducible] def setTransfer (st : ServiceState) (k : String)
    (t : FileTransfer) : ServiceState :=
  { st with activeTransfers := mapSet st.activeTransfers k t }

/-- A transfer with its status replaced. -/
@[reducible] def withStatus (t : FileTransfer) (s : TransferStatus) :
    FileTransfer :=
  { t with status := s }

lemma updT_updT (t : FileTransfer) (tc : Nat) (ta : Nat → ℚ) (j k : Nat) :
    updT (updT t tc ta j) tc ta k = updT t tc ta k := rfl

lemma updT_status (t : FileTransfer) (tc : Nat) (ta : Nat → ℚ) (j : Nat) :
    (updT t tc ta j).status = t.status := rfl

lemma updT_file (t : FileTransfer) (tc : Nat) (ta : Nat → ℚ) (j : Nat) :
    (updT t tc ta j).file = t.file := rfl

lemma updT_encryptionKey (t : FileTransfer) (tc : Nat) (ta : Nat → ℚ)
    (j : Nat) : (updT t tc ta j).encryptionKey = t.encryptionKey := rfl

lemma updT_progress (t : FileTransfer) (tc : Nat) (ta : Nat → ℚ) (j : Nat) :
    (updT t tc ta j).progress = progressOf tc j := rfl

lemma updT_speed (t : FileTransfer) (tc : Nat) (ta : Nat → ℚ) (j : Nat) :
    (updT t tc ta j).speed
      = calculateTransferSpeed t (ta j) ((j + 1) * CHUNK_SIZE) := rfl

lemma calculateTransferSpeed_updT (t : FileTransfer) (tc : Nat)
    (ta : Nat → ℚ) (j : Nat) (now : ℚ) (b : Nat) :
    calculateTransferSpeed (updT t tc ta j) now b
      = calculateTransferSpeed t now b := rfl

/-- The progress event fired after a successful send of chunk `j`. -/
def progressEventOf (transferId : String) (t : FileTransfer)
    (totalChunks : Nat) (timeAt : Nat → ℚ) (j : Nat) : TransferEvent :=
  TransferEvent.onProgress transferId (progressOf totalChunks j)
    (calculateTransferSpeed t (timeAt j) ((j + 1) * CHUNK_SIZE))

lemma progressEventOf_updT (transferId : String) (t : FileTransfer)
    (tc : Nat) (ta : Nat → ℚ) (j tc2 : Nat) (ta2 : Nat → ℚ) :
    progressEventOf transferId (updT t tc ta j) tc2 ta2
      = progressEventOf transferId t tc2 ta2 := rfl

lemma progressEventOf_withStatus (transferId : String) (t : FileTransfer)
    (s : TransferStatus) (tc : Nat) (ta : Nat → ℚ) :
    progressEventOf transferId (withStatus t s) tc ta
      = progressEventOf transferId t tc ta := rfl

/-- The transfer value at loop exit: unchanged when no chunk was handled,
otherwise the snapshot of the last handled chunk index. -/
def lastUpd (t : FileTransfer) (totalChunks : Nat) (timeAt : Nat → ℚ)
    (i r : Nat) : FileTransfer :=
  if r = 0 then t else updT t totalChunks timeAt (i + r - 1)

/-- A clean run of the chunk loop: no pause is ever observed and the channel
accepts every message. The loop walks indices `i, i+1, …, i+r-1` in order,
emits exactly the corresponding chunk messages and progress events, and
finishes with the transfer `completed` and the completion callback fired. -/
lemma sendLoop_clean (transferId : String) (sendFn : WireMessage → Bool)
    (pausedObs : Nat → Bool) (ivFor : Nat → List Byte) (timeAt : Nat → ℚ)
    (totalChunks : Nat)
    (hp : ∀ j, pausedObs j = false) :
    ∀ (r i : Nat) (st : ServiceState) (t : FileTransfer)
      (msgs : List WireMessage) (evs : List TransferEvent),
      t.status = TransferStatus.transferring →
      st.callbackIds.contains transferId = true →
      (∀ j, sendFn (chunkMessageOf transferId t.file t.encryptionKey ivFor
        totalChunks j) = true) →
      sendLoop transferId sendFn pausedObs ivFor timeAt totalChunks i r st t
        msgs evs =
      ⟨setTransfer st transferId
         (withStatus (lastUpd t totalChunks timeAt i r)
           TransferStatus.completed),
       msgs ++ (List.range' i r).map
         (chunkMessageOf transferId t.file t.encryptionKey ivFor totalChunks),
       evs ++ (List.range' i r).map
         (progressEventOf transferId t totalChunks timeAt)
         ++ [TransferEvent.onComplete transferId],
       none⟩ := by
  intro r
  induction r with
  | zero =>
      intro i st t msgs evs ht hcb _
      simp only [sendLoop, finishSend, ht, if_pos, hcb, if_true, lastUpd,
        List.range'_zero, List.map_nil, List.append_nil]
  | succ r ih =>
      intro i st t msgs evs ht hcb hs
      simp only [sendLoop, hp i, Bool.false_eq_true, if_false, hs i, if_true,
        hcb, updT_progress, updT_speed]
      have hrec := ih (i + 1)
        ⟨mapSet st.activeTransfers transferId (updT t totalChunks timeAt i),
          st.callbackIds, st.receivedChunks⟩
        (updT t totalChunks timeAt i)
        (msgs ++ [chunkMessageOf transferId t.file t.encryptionKey ivFor
          totalChunks i])
        (evs ++ [TransferEvent.onProgress transferId (progressOf totalChunks i)
          (calculateTransferSpeed t (timeAt i) ((i + 1) * CHUNK_SIZE))])
        ht hcb hs
      rw [hrec]
      simp only [updT_file, updT_encryptionKey, progressEventOf_updT,
        setTransfer, mapSet_mapSet]
      rw [List.range'_succ i r 1]
      by_cases hr : r = 0
      · subst hr
        simp [lastUpd, progressEventOf, List.append_assoc]
      · have h1 : i + 1 + r - 1 = i + r := by omega
        have h2 : i + (r + 1) - 1 = i + r := by omega
        simp [lastUpd, hr, h1, h2, updT_updT, progressEventOf,
          List.append_assoc]

/-- A paused run of the chunk loop: the status check observes `paused` for
the first time at index `p` (every earlier check observes `transferring`,
every earlier send succeeds). The loop sends exactly chunks `i, …, p-1`,
stops at the check before chunk `p` — never mid-chunk — and exits with the
transfer left `paused` and no completion event. -/
lemma sendLoop_pause (transferId : String) (sendFn : WireMessage → Bool)
    (pausedObs : Nat → Bool) (ivFor : Nat → List Byte) (timeAt : Nat → ℚ)
    (totalChunks p : Nat)
    (hp : ∀ j, j < p → pausedObs j = false) (hpp : pausedObs p = true) :
    ∀ (r i : Nat) (st : ServiceState) (t : FileTransfer)
      (msgs : List WireMessage) (evs : List TransferEvent),
      t.status = TransferStatus.transferring →
      st.callbackIds.contains transferId = true →
      (∀ j, sendFn (chunkMessageOf transferId t.file t.encryptionKey ivFor
        totalChunks j) = true) →
      i ≤ p → p < i + r →
      sendLoop transferId sendFn pausedObs ivFor timeAt totalChunks i r st t
        msgs evs =
      ⟨setTransfer st transferId
         (withStatus (lastUpd t totalChunks timeAt i (p - i))
           TransferStatus.paused),
       msgs ++ (List.range' i (p - i)).map
         (chunkMessageOf transferId t.file t.encryptionKey ivFor totalChunks),
       evs ++ (List.range' i (p - i)).map
         (progressEventOf transferId t totalChunks timeAt),
       none⟩ := by
  intro r
  induction r with
  | zero =>
      intro i st t msgs evs _ _ _ hip hpr
      omega
  | succ r ih =>
      intro i st t msgs evs ht hcb hs hip hpr
      by_cases hik : i = p
      · subst hik
        simp only [sendLoop, hpp, if_true, Nat.sub_self, lastUpd, if_pos,
          List.range'_zero, List.map_nil, List.append_nil]
        simp [finishSend, withStatus, setTransfer]
      · have hlt : i < p := by omega
        simp only [sendLoop, hp i hlt, Bool.false_eq_true, if_false, hs i,
          if_true, hcb, updT_progress, updT_speed]
        have hrec := ih (i + 1)
          ⟨mapSet st.activeTransfers transferId (updT t totalChunks timeAt i),
            st.callbackIds, st.receivedChunks⟩
          (updT t totalChunks timeAt i)
          (msgs ++ [chunkMessageOf transferId t.file t.encryptionKey ivFor
            totalChunks i])
          (evs ++ [TransferEvent.onProgress transferId
            (progressOf totalChunks i)
            (calculateTransferSpeed t (timeAt i) ((i + 1) * CHUNK_SIZE))])
          ht hcb hs (by omega) (by omega)
        rw [hrec]
        simp only [updT_file, updT_encryptionKey, progressEventOf_updT,
          setTransfer, mapSet_mapSet]
        have hsub : p - i = (p - (i + 1)) + 1 := by omega
        rw [hsub, List.range'_succ i (p - (i + 1)) 1]
        by_cases hr : p - (i + 1) = 0
        · have hpi : p = i + 1 := by omega
          simp [lastUpd, hr, hpi, progressEventOf, List.append_assoc]
        · have h1 : i + 1 + (p - (i + 1)) - 1 = i + (p - (i + 1) + 1) - 1 := by
            omega
          simp [lastUpd, hr, h1, updT_updT, progressEventOf,
            List.append_assoc]

/-- A run of the chunk loop in which the channel first refuses the message of
chunk `k` (no pause is observed up to `k`, every earlier send succeeds): the
loop sends chunks `i, …, k-1`, attempts chunk `k`, then marks the transfer
`failed`, fires the error callback naming chunk `k`, and sends nothing
further. -/
lemma sendLoop_fail (transferId : String) (sendFn : WireMessage → Bool)
    (pausedObs : Nat → Bool) (ivFor : Nat → List Byte) (timeAt : Nat → ℚ)
    (totalChunks k : Nat)
    (hp : ∀ j, j ≤ k → pausedObs j = false) :
    ∀ (r i : Nat) (st : ServiceState) (t : FileTransfer)
      (msgs : List WireMessage) (evs : List TransferEvent),
      t.status = TransferStatus.transferring →
      st.callbackIds.contains transferId = true →
      mapGet st.activeTransfers transferId = some t →
      (∀ j, j < k → sendFn (chunkMessageOf transferId t.file t.encryptionKey
        ivFor totalChunks j) = true) →
      sendFn (chunkMessageOf transferId t.file t.encryptionKey ivFor
        totalChunks k) = false →
      i ≤ k → k < i + r →
      sendLoop transferId sendFn pausedObs ivFor timeAt totalChunks i r st t
        msgs evs =
      ⟨setTransfer st transferId
         (withStatus (lastUpd t totalChunks timeAt i (k - i))
           TransferStatus.failed),
       msgs ++ (List.range' i (k - i + 1)).map
         (chunkMessageOf transferId t.file t.encryptionKey ivFor totalChunks),
       evs ++ (List.range' i (k - i)).map
         (progressEventOf transferId t totalChunks timeAt)
         ++ [TransferEvent.onError transferId
               ("Failed to send chunk " ++ toString k)],
       none⟩ := by
  intro r
  induction r with
  | zero =>
      intro i st t msgs evs _ _ _ _ _ hik hkr
      omega
  | succ r ih =>
      intro i st t msgs evs ht hcb hmem hsOK hsK hik hkr
      by_cases hike : i = k
      · subst hike
        simp only [sendLoop, hp i (Nat.le_refl i), Bool.false_eq_true,
          if_false, hsK, Nat.sub_self, lastUpd, if_pos, List.range'_zero,
          List.map_nil, List.append_nil]
        simp [handleTransferError, hmem, hcb, setTransfer, withStatus,
          List.range'_one]
        simpa using hcb
      · have hlt : i < k := by omega
        simp only [sendLoop, hp i (Nat.le_of_lt hlt), Bool.false_eq_true,
          if_false, hsOK i hlt, if_true, hcb, updT_progress, updT_speed]
        have hrec := ih (i + 1)
          ⟨mapSet st.activeTransfers transferId (updT t totalChunks timeAt i),
            st.callbackIds, st.receivedChunks⟩
          (updT t totalChunks timeAt i)
          (msgs ++ [chunkMessageOf transferId t.file t.encryptionKey ivFor
            totalChunks i])
          (evs ++ [TransferEvent.onProgress transferId
            (progressOf totalChunks i)
            (calculateTransferSpeed t (timeAt i) ((i + 1) * CHUNK_SIZE))])
          ht hcb (mapGet_mapSet_self st.activeTransfers transferId _)
          hsOK hsK (by omega) (by omega)
        rw [hrec]
        simp only [updT_file, updT_encryptionKey, progressEventOf_updT,
          setTransfer, mapSet_mapSet]
        have hsub1 : k - i + 1 = (k - (i + 1) + 1) + 1 := by omega
        have hsub2 : k - i = (k - (i + 1)) + 1 := by omega
        rw [hsub1, hsub2, List.range'_succ i (k - (i + 1) + 1) 1,
          List.range'_succ i (k - (i + 1)) 1]
        by_cases hr : k - (i + 1) = 0
        · have hki : k = i + 1 := by omega
          simp [lastUpd, hr, hki, progressEventOf, List.append_assoc]
        · have h1 : i + 1 + (k - (i + 1)) - 1 = i + (k - (i + 1) + 1) - 1 := by
            omega
          simp [lastUpd, hr, h1, updT_updT, progressEventOf,
            List.append_assoc]

/-- The `transfer-start` metadata message as built at lines 292–300. -/
@[reducible] def metadataOf (transferId : String) (t : FileTransfer) : WireMessage :=
  WireMessage.transferStart transferId t.file.name t.file.size
    (senderTotalChunks t.file.size)
    (EncryptionService.exportKey t.encryptionKey) t.checksum

/-- C10: calling `sendFileChunks` with a transferId absent from the registry
throws `Transfer not found` before sending anything: the state is unchanged,
no message reaches the send function, and no callback fires. -/
theorem c10_unknown_transfer_throws (st : ServiceState) (transferId : String)
    (sendFn : WireMessage → Bool) (pausedObs : Nat → Bool)
    (ivFor : Nat → List Byte) (timeAt : Nat → ℚ)
    (h : mapGet st.activeTransfers transferId = none) :
    sendFileChunks st transferId sendFn pausedObs ivFor timeAt
      = ⟨st, [], [], some "Transfer not found"⟩ := by
  simp only [sendFileChunks]
  rw [h]

/-- Witness for C10 at a concrete state whose registry does not know the id. -/
theorem c10_witness :
    sendFileChunks ⟨[], [], []⟩ "nope" (fun _ => true) (fun _ => false)
      (fun _ => []) (fun _ => 0)
      = ⟨⟨[], [], []⟩, [], [], some "Transfer not found"⟩ :=
  c10_unknown_transfer_throws ⟨[], [], []⟩ "nope" (fun _ => true)
    (fun _ => false) (fun _ => []) (fun _ => 0) rfl

/-- Characterization of a clean `sendFileChunks` run (no pause observed,
every send accepted): the full result record. -/
lemma sendFileChunks_clean_spec (st : ServiceState) (transferId : String)
    (t0 : FileTransfer) (sendFn : WireMessage → Bool) (pausedObs : Nat → Bool)
    (ivFor : Nat → List Byte) (timeAt : Nat → ℚ)
    (hfind : mapGet st.activeTransfers transferId = some t0)
    (hcb : st.callbackIds.contains transferId = true)
    (hsend : ∀ m, sendFn m = true)
    (hpause : ∀ j, pausedObs j = false) :
    sendFileChunks st transferId sendFn pausedObs ivFor timeAt =
      ⟨setTransfer st transferId
         (withStatus
           (lastUpd (withStatus t0 TransferStatus.transferring)
             (senderTotalChunks t0.file.size) timeAt 0
             (senderTotalChunks t0.file.size))
           TransferStatus.completed),
       metadataOf transferId t0
         :: (List.range (senderTotalChunks t0.file.size)).map
             (chunkMessageOf transferId t0.file t0.encryptionKey ivFor
               (senderTotalChunks t0.file.size)),
       (List.range (senderTotalChunks t0.file.size)).map
           (progressEventOf transferId t0 (senderTotalChunks t0.file.size)
             timeAt)
         ++ [TransferEvent.onComplete transferId],
       none⟩ := by
  have h := sendLoop_clean transferId sendFn pausedObs ivFor timeAt
    (senderTotalChunks t0.file.size) hpause (senderTotalChunks t0.file.size) 0
    (setTransfer st transferId (withStatus t0 TransferStatus.transferring))
    (withStatus t0 TransferStatus.transferring)
    [metadataOf transferId t0] [] rfl hcb (fun j => hsend _)
  simp only [sendFileChunks]
  rw [hfind]
  simp only [hsend, if_true, List.range_eq_range']
  rw [h]
  simp [setTransfer, withStatus, mapSet_mapSet, progressEventOf_withStatus]

/-- C1: for a registered transfer, a run of `sendFileChunks` in which no
pause is observed and every send succeeds marks the transfer `transferring`,
passes exactly one `transfer-start` message to the channel followed by the
`file-chunk` messages for indices `0, …, totalChunks-1` in strictly
ascending order — chunk `i` covering the byte window
`[i*CHUNK_SIZE, min (fileSize) ((i+1)*CHUNK_SIZE))` and flagged
`isLastChunk` iff `i = totalChunks - 1` (see `chunkMessageOf`) — and finishes
with the transfer `completed` and the completion callback invoked. -/
theorem c1_sendFileChunks_clean_run (st : ServiceState) (transferId : String)
    (t0 : FileTransfer) (sendFn : WireMessage → Bool) (pausedObs : Nat → Bool)
    (ivFor : Nat → List Byte) (timeAt : Nat → ℚ)
    (hfind : mapGet st.activeTransfers transferId = some t0)
    (hcb : st.callbackIds.contains transferId = true)
    (hsend : ∀ m, sendFn m = true)
    (hpause : ∀ j, pausedObs j = false) :
    sendFileChunks st transferId sendFn pausedObs ivFor timeAt =
      ⟨setTransfer st transferId
         (withStatus
           (lastUpd (withStatus t0 TransferStatus.transferring)
             (senderTotalChunks t0.file.size) timeAt 0
             (senderTotalChunks t0.file.size))
           TransferStatus.completed),
       metadataOf transferId t0
         :: (List.range (senderTotalChunks t0.file.size)).map
             (chunkMessageOf transferId t0.file t0.encryptionKey ivFor
               (senderTotalChunks t0.file.size)),
       (List.range (senderTotalChunks t0.file.size)).map
           (progressEventOf transferId t0 (senderTotalChunks t0.file.size)
             timeAt)
         ++ [TransferEvent.onComplete transferId],
       none⟩ :=
  sendFileChunks_clean_spec st transferId t0 sendFn pausedObs ivFor timeAt
    hfind hcb hsend hpause

/-- Concrete transfer fixture: a one-byte file, so exactly one chunk. -/
def tOne : FileTransfer :=
  ⟨"t", ⟨"f.bin", 1, [5]⟩, TransferStatus.pending, 0, 0, 0, [7], [5], "p"⟩

/-- Concrete registry holding `tOne` with its callbacks registered. -/
def stOne : ServiceState := ⟨[("t", tOne)], ["t"], []⟩

/-- Witness for C1: the clean run over the one-chunk fixture. -/
theorem c1_witness :
    sendFileChunks stOne "t" (fun _ => true) (fun _ => false) (fun _ => [])
      (fun _ => 1000) =
      ⟨setTransfer stOne "t"
         (withStatus
           (lastUpd (withStatus tOne TransferStatus.transferring)
             (senderTotalChunks tOne.file.size) (fun _ => 1000) 0
             (senderTotalChunks tOne.file.size))
           TransferStatus.completed),
       metadataOf "t" tOne
         :: (List.range (senderTotalChunks tOne.file.size)).map
             (chunkMessageOf "t" tOne.file tOne.encryptionKey (fun _ => [])
               (senderTotalChunks tOne.file.size)),
       (List.range (senderTotalChunks tOne.file.size)).map
           (progressEventOf "t" tOne (senderTotalChunks tOne.file.size)
             (fun _ => 1000))
         ++ [TransferEvent.onComplete "t"],
       none⟩ :=
  c1_sendFileChunks_clean_run stOne "t" tOne (fun _ => true) (fun _ => false)
    (fun _ => []) (fun _ => 1000) rfl rfl (fun _ => rfl) (fun _ => rfl)

/-- C4 (amended): sender and receiver compute `totalChunks` by the same
expression, equal to the exact ceiling `⌈size / CHUNK_SIZE⌉`; for
`size = 0` this value is `0` — the code sends no zero-length final chunk. -/
theorem c4_totalChunks_agree :
    (∀ S : ℕ, receiverTotalChunks S = senderTotalChunks S
      ∧ (senderTotalChunks S : ℤ) = ⌈(S : ℚ) / ((CHUNK_SIZE : ℕ) : ℚ)⌉)
    ∧ senderTotalChunks 0 = 0 :=
  ⟨fun S => ⟨receiverTotalChunks_eq_sender S, senderTotalChunks_eq_ceil S⟩,
   rfl⟩

/-- Empty-file fixture for the C4 counterexample. -/
def tEmpty : FileTransfer :=
  ⟨"e", ⟨"empty.bin", 0, []⟩, TransferStatus.pending, 0, 0, 0, [], [], "p"⟩

/-- Registry holding the empty-file transfer. -/
def stEmpty : ServiceState := ⟨[("e", tEmpty)], ["e"], []⟩

/-- Counterexample to C4 as stated: for `S = 0` the code computes
`totalChunks = 0`, not the claimed "exactly one zero-length final chunk"; a
clean send of the empty file passes only the `transfer-start` message to the
channel — no `file-chunk` at all — and completes. -/
theorem c4_counterexample :
    senderTotalChunks 0 = 0
    ∧ (sendFileChunks stEmpty "e" (fun _ => true) (fun _ => false)
        (fun _ => []) (fun _ => 1000)).sent = [metadataOf "e" tEmpty]
    ∧ (sendFileChunks stEmpty "e" (fun _ => true) (fun _ => false)
        (fun _ => []) (fun _ => 1000)).state
      = setTransfer stEmpty "e"
          (withStatus (withStatus tEmpty TransferStatus.transferring)
            TransferStatus.completed) :=
  ⟨rfl, rfl, rfl⟩

/-- C3: round trip of the modelled AEAD cipher — decryption under the same
key and the iv returned by encryption recovers every plaintext — and the
key serialization round trip is exact, `importKey (exportKey k) = some k`,
so the imported key is the very same key and behaves identically for
encryption and decryption. -/
theorem c3_crypto_round_trip :
    (∀ p key iv : List Byte,
      EncryptionService.decrypt (EncryptionService.encrypt p key iv).1 key
        (EncryptionService.encrypt p key iv).2 = some p)
    ∧ ∀ key : List Byte,
      EncryptionService.importKey (EncryptionService.exportKey key)
        = some key :=
  ⟨fun p key iv => EncryptionService.decrypt_encrypt p key iv,
   fun key => EncryptionService.importKey_exportKey key⟩

/-- C7: `pauseTransfer` changes a transfer only from `transferring` (to
`paused`) and `resumeTransfer` only from `paused` (back to `transferring`);
in every other status — including the terminal `completed` and `failed` —
and for unknown ids, each call leaves the whole state unchanged. Moreover a
pause observed by the sender loop at the per-chunk check before index `p`
(after `p` clean sends) stops the loop at that check: chunks `0, …, p-1`
are sent, chunk `p` is not, and the transfer is left `paused`. -/
theorem c7_pause_resume_contract :
    (∀ (st : ServiceState) (tid : String) (t : FileTransfer),
      mapGet st.activeTransfers tid = some t →
      (t.status = TransferStatus.transferring →
        pauseTransfer st tid
          = setTransfer st tid (withStatus t TransferStatus.paused))
      ∧ (t.status ≠ TransferStatus.transferring → pauseTransfer st tid = st))
    ∧ (∀ (st : ServiceState) (tid : String),
      mapGet st.activeTransfers tid = none → pauseTransfer st tid = st)
    ∧ (∀ (st : ServiceState) (tid : String) (t : FileTransfer),
      mapGet st.activeTransfers tid = some t →
      (t.status = TransferStatus.paused →
        resumeTransfer st tid
          = setTransfer st tid (withStatus t TransferStatus.transferring))
      ∧ (t.status ≠ TransferStatus.paused → resumeTransfer st tid = st))
    ∧ (∀ (st : ServiceState) (tid : String),
      mapGet st.activeTransfers tid = none → resumeTransfer st tid = st)
    ∧ (∀ (st : ServiceState) (tid : String) (t0 : FileTransfer)
        (sendFn : WireMessage → Bool) (pausedObs : Nat → Bool)
        (ivFor : Nat → List Byte) (timeAt : Nat → ℚ) (p : Nat),
      mapGet st.activeTransfers tid = some t0 →
      st.callbackIds.contains tid = true →
      (∀ m, sendFn m = true) →
      (∀ j, j < p → pausedObs j = false) →
      pausedObs p = true →
      p < senderTotalChunks t0.file.size →
      sendFileChunks st tid sendFn pausedObs ivFor timeAt =
        ⟨setTransfer st tid
           (withStatus
             (lastUpd (withStatus t0 TransferStatus.transferring)
               (senderTotalChunks t0.file.size) timeAt 0 p)
             TransferStatus.paused),
         metadataOf tid t0
           :: (List.range p).map (chunkMessageOf tid t0.file t0.encryptionKey
               ivFor (senderTotalChunks t0.file.size)),
         (List.range p).map (progressEventOf tid t0
           (senderTotalChunks t0.file.size) timeAt),
         none⟩) := by
  refine ⟨?_, ?_, ?_, ?_, ?_⟩
  · intro st tid t h
    constructor
    · intro hs
      simp [pauseTransfer, h, hs, setTransfer, withStatus]
    · intro hs
      simp [pauseTransfer, h, hs]
  · intro st tid h
    simp [pauseTransfer, h]
  · intro st tid t h
    constructor
    · intro hs
      simp [resumeTransfer, h, hs, setTransfer, withStatus]
    · intro hs
      simp [resumeTransfer, h, hs]
  · intro st tid h
    simp [resumeTransfer, h]
  · intro st tid t0 sendFn pausedObs ivFor timeAt p hfind hcb hsend hp hpp hplt
    have h := sendLoop_pause tid sendFn pausedObs ivFor timeAt
      (senderTotalChunks t0.file.size) p hp hpp
      (senderTotalChunks t0.file.size) 0
      (setTransfer st tid (withStatus t0 TransferStatus.transferring))
      (withStatus t0 TransferStatus.transferring)
      [metadataOf tid t0] [] rfl hcb (fun j => hsend _) (Nat.zero_le p)
      (by omega)
    simp only [sendFileChunks]
    rw [hfind]
    simp only [hsend, if_true, List.range_eq_range']
    rw [h]
    simp [setTransfer, withStatus, mapSet_mapSet, progressEventOf_withStatus]

/-- A registered transfer in the `transferring` state, 4096-byte file. -/
def tP : FileTransfer :=
  ⟨"t", ⟨"f", 4096, []⟩, TransferStatus.transferring, 0, 0, 0, [], [], "p"⟩

/-- Registry with `tP` under id `t`. -/
def stP : ServiceState := ⟨[("t", tP)], ["t"], []⟩

/-- Registry with a completed transfer under id `t`. -/
def stPdone : ServiceState :=
  ⟨[("t", withStatus tP TransferStatus.completed)], ["t"], []⟩

/-- Registry with a paused transfer under id `t`. -/
def stPpaused : ServiceState :=
  ⟨[("t", withStatus tP TransferStatus.paused)], ["t"], []⟩

/-- Witness for C7: pausing a transferring transfer pauses it; pausing a
completed transfer and resuming a completed transfer change nothing;
resuming a paused transfer resumes it; and a pause observed at the very
first per-chunk check stops the one-chunk sender loop before chunk 0. -/
theorem c7_witness :
    pauseTransfer stP "t" = setTransfer stP "t"
      (withStatus tP TransferStatus.paused)
    ∧ pauseTransfer stPdone "t" = stPdone
    ∧ resumeTransfer stPpaused "t" = setTransfer stPpaused "t"
      (withStatus (withStatus tP TransferStatus.paused)
        TransferStatus.transferring)
    ∧ resumeTransfer stPdone "t" = stPdone
    ∧ sendFileChunks stOne "t" (fun _ => true) (fun _ => true) (fun _ => [])
        (fun _ => 1000) =
      ⟨setTransfer stOne "t"
         (withStatus
           (lastUpd (withStatus tOne TransferStatus.transferring)
             (senderTotalChunks tOne.file.size) (fun _ => 1000) 0 0)
           TransferStatus.paused),
       metadataOf "t" tOne
         :: (List.range 0).map (chunkMessageOf "t" tOne.file
             tOne.encryptionKey (fun _ => [])
             (senderTotalChunks tOne.file.size)),
       (List.range 0).map (progressEventOf "t" tOne
         (senderTotalChunks tOne.file.size) (fun _ => 1000)),
       none⟩ :=
  ⟨(c7_pause_resume_contract.1 stP "t" tP rfl).1 rfl,
   (c7_pause_resume_contract.1 stPdone "t"
     (withStatus tP TransferStatus.completed) rfl).2 (by decide),
   (c7_pause_resume_contract.2.2.1 stPpaused "t"
     (withStatus tP TransferStatus.paused) rfl).1 rfl,
   (c7_pause_resume_contract.2.2.1 stPdone "t"
     (withStatus tP TransferStatus.completed) rfl).2 (by decide),
   c7_pause_resume_contract.2.2.2.2 stOne "t" tOne (fun _ => true)
     (fun _ => true) (fun _ => []) (fun _ => 1000) 0 rfl rfl (fun _ => rfl)
     (fun j hj => absurd hj (Nat.not_lt_zero j)) rfl (by decide)⟩

/-- C8: during `sendFileChunks`, a send-function refusal is fatal with no
retry. If the `transfer-start` metadata is refused, the transfer is marked
`failed`, the error callback fires with `Failed to send transfer metadata`,
and nothing else is passed to the channel. If chunks `0, …, k-1` are
accepted and chunk `k` is refused (no pause observed), the attempted
messages are exactly the metadata and chunks `0, …, k`, the transfer is
marked `failed`, and the error callback fires naming chunk `k` — no further
message for the transfer is sent. -/
theorem c8_send_failure_is_fatal (st : ServiceState) (tid : String)
    (t0 : FileTransfer) (sendFn : WireMessage → Bool) (pausedObs : Nat → Bool)
    (ivFor : Nat → List Byte) (timeAt : Nat → ℚ)
    (hfind : mapGet st.activeTransfers tid = some t0)
    (hcb : st.callbackIds.contains tid = true)
    (hpause : ∀ j, pausedObs j = false) :
    (sendFn (metadataOf tid t0) = false →
      sendFileChunks st tid sendFn pausedObs ivFor timeAt =
        ⟨setTransfer st tid
           (withStatus (withStatus t0 TransferStatus.transferring)
             TransferStatus.failed),
         [metadataOf tid t0],
         [TransferEvent.onError tid "Failed to send transfer metadata"],
         none⟩)
    ∧ ∀ k : Nat,
      sendFn (metadataOf tid t0) = true →
      (∀ j, j < k → sendFn (chunkMessageOf tid t0.file t0.encryptionKey ivFor
        (senderTotalChunks t0.file.size) j) = true) →
      sendFn (chunkMessageOf tid t0.file t0.encryptionKey ivFor
        (senderTotalChunks t0.file.size) k) = false →
      k < senderTotalChunks t0.file.size →
      sendFileChunks st tid sendFn pausedObs ivFor timeAt =
        ⟨setTransfer st tid
           (withStatus
             (lastUpd (withStatus t0 TransferStatus.transferring)
               (senderTotalChunks t0.file.size) timeAt 0 k)
             TransferStatus.failed),
         metadataOf tid t0
           :: (List.range (k + 1)).map (chunkMessageOf tid t0.file
               t0.encryptionKey ivFor (senderTotalChunks t0.file.size)),
         (List.range k).map (progressEventOf tid t0
             (senderTotalChunks t0.file.size) timeAt)
           ++ [TransferEvent.onError tid
                 ("Failed to send chunk " ++ toString k)],
         none⟩ := by
  constructor
  · intro hmf
    have hmf' : sendFn (WireMessage.transferStart tid t0.file.name
        t0.file.size (senderTotalChunks t0.file.size)
        (EncryptionService.exportKey t0.encryptionKey) t0.checksum)
        = false := hmf
    simp only [sendFileChunks]
    rw [hfind]
    simp only [hmf', Bool.false_eq_true, if_false, handleTransferError,
      mapGet_mapSet_self, hcb, if_true]
    simp [setTransfer, withStatus, mapSet_mapSet]
  · intro k hm hsOK hsK hk
    have h := sendLoop_fail tid sendFn pausedObs ivFor timeAt
      (senderTotalChunks t0.file.size) k (fun j _ => hpause j)
      (senderTotalChunks t0.file.size) 0
      (setTransfer st tid (withStatus t0 TransferStatus.transferring))
      (withStatus t0 TransferStatus.transferring)
      [metadataOf tid t0] [] rfl hcb
      (mapGet_mapSet_self st.activeTransfers tid _)
      (fun j hj => hsOK j hj) hsK (Nat.zero_le k) (by omega)
    have hm' : sendFn (WireMessage.transferStart tid t0.file.name
        t0.file.size (senderTotalChunks t0.file.size)
        (EncryptionService.exportKey t0.encryptionKey) t0.checksum)
        = true := hm
    simp only [sendFileChunks]
    rw [hfind]
    simp only [hm', if_true, List.range_eq_range']
    rw [h]
    simp [setTransfer, withStatus, mapSet_mapSet, progressEventOf_withStatus]

/-- Witness for C8: over the one-chunk fixture, a channel refusing every
`file-chunk` (but accepting metadata) fails the transfer at chunk 0 after
attempting exactly the metadata and chunk 0; and a channel refusing
everything fails it at the metadata having attempted only the metadata. -/
theorem c8_witness :
    sendFileChunks stOne "t"
        (fun m => match m with
          | WireMessage.fileChunk _ _ _ _ _ _ => false
          | _ => true)
        (fun _ => false) (fun _ => []) (fun _ => 1000) =
      ⟨setTransfer stOne "t"
         (withStatus
           (lastUpd (withStatus tOne TransferStatus.transferring)
             (senderTotalChunks tOne.file.size) (fun _ => 1000) 0 0)
           TransferStatus.failed),
       metadataOf "t" tOne
         :: (List.range 1).map (chunkMessageOf "t" tOne.file
             tOne.encryptionKey (fun _ => [])
             (senderTotalChunks tOne.file.size)),
       (List.range 0).map (progressEventOf "t" tOne
           (senderTotalChunks tOne.file.size) (fun _ => 1000))
         ++ [TransferEvent.onError "t" ("Failed to send chunk " ++
               toString 0)],
       none⟩
    ∧ sendFileChunks stOne "t" (fun _ => false) (fun _ => false)
        (fun _ => []) (fun _ => 1000) =
      ⟨setTransfer stOne "t"
         (withStatus (withStatus tOne TransferStatus.transferring)
           TransferStatus.failed),
       [metadataOf "t" tOne],
       [TransferEvent.onError "t" "Failed to send transfer metadata"],
       none⟩ :=
  ⟨(c8_send_failure_is_fatal stOne "t" tOne
      (fun m => match m with
        | WireMessage.fileChunk _ _ _ _ _ _ => false
        | _ => true)
      (fun _ => false) (fun _ => []) (fun _ => 1000) rfl rfl
      (fun _ => rfl)).2 0 rfl
      (fun j hj => absurd hj (Nat.not_lt_zero j)) rfl (by decide),
   (c8_send_failure_is_fatal stOne "t" tOne (fun _ => false)
      (fun _ => false) (fun _ => []) (fun _ => 1000) rfl rfl
      (fun _ => rfl)).1 rfl⟩

lemma mapGet_mapDelete_self {α : Type} (m : List (String × α)) (k : String) :
    mapGet (mapDelete m k) k = none := by
  induction m with
  | nil => rfl
  | cons p rest ih =>
      obtain ⟨k', v'⟩ := p
      by_cases h : k' == k
      · simp only [mapDelete, List.filter_cons, h, Bool.not_true, if_false]
        simp only [mapDelete] at ih
        exact ih
      · simp only [mapDelete, List.filter_cons, h, Bool.not_false,
          if_true, if_false]
        simp only [mapDelete] at ih
        simp [mapGet, List.find?, h]

/-- When the sparse buffer has a hole, the reconstruction loop hits it and
throws. -/
lemma concatChunks_of_mem (l : List (Option (List Byte))) (h : none ∈ l) :
    concatChunks l = Except.error "TypeError: missing chunk" := by
  induction l with
  | nil => cases h
  | cons o rest ih =>
      match o with
      | none => rfl
      | some c =>
          have h' : none ∈ rest := by
            rcases List.mem_cons.mp h with h0 | h0
            · exact absurd h0 (by simp)
            · exact h0
          simp [concatChunks, ih h', Except.map]

/-- When the sparse buffer has no hole, reconstruction concatenates the
chunks in index order. -/
lemma concatChunks_of_not_mem (l : List (Option (List Byte)))
    (h : none ∉ l) :
    concatChunks l = Except.ok (l.flatMap (fun o => o.getD [])) := by
  induction l with
  | nil => rfl
  | cons o rest ih =>
      match o with
      | none => exact absurd (List.mem_cons_self none rest) h
      | some c =>
          have h' : none ∉ rest := fun hm => h (List.mem_cons_of_mem _ hm)
          simp [concatChunks, ih h', Except.map, List.flatMap_cons]

/-- C6 (amended): `cancelTransfer` on a registered id removes the Transfer
entry and its callback registration immediately — the id no longer resolves
— but the received-chunk buffer (`receivedChunks`) is left untouched. -/
theorem c6_cancel_removes_transfer_not_chunks (st : ServiceState)
    (tid : String) (t : FileTransfer)
    (h : mapGet st.activeTransfers tid = some t) :
    cancelTransfer st tid =
      ⟨mapDelete st.activeTransfers tid,
       st.callbackIds.filter (fun s => !(s == tid)), st.receivedChunks⟩
    ∧ mapGet (cancelTransfer st tid).activeTransfers tid = none
    ∧ (cancelTransfer st tid).receivedChunks = st.receivedChunks := by
  have h1 : cancelTransfer st tid =
      ⟨mapDelete st.activeTransfers tid,
       st.callbackIds.filter (fun s => !(s == tid)), st.receivedChunks⟩ := by
    simp [cancelTransfer, h]
  refine ⟨h1, ?_, ?_⟩ <;> rw [h1]
  exact mapGet_mapDelete_self _ _

/-- A registered transferring transfer with one chunk already buffered. -/
def stC6 : ServiceState := ⟨[("t", tP)], ["t"], [("t", [some [1]])]⟩

/-- Witness for C6 at `stC6`. -/
theorem c6_witness :
    cancelTransfer stC6 "t" =
      ⟨mapDelete stC6.activeTransfers "t",
       stC6.callbackIds.filter (fun s => !(s == "t")), stC6.receivedChunks⟩
    ∧ mapGet (cancelTransfer stC6 "t").activeTransfers "t" = none
    ∧ (cancelTransfer stC6 "t").receivedChunks = stC6.receivedChunks :=
  c6_cancel_removes_transfer_not_chunks stC6 "t" tP rfl

/-- Counterexample to C6 as stated: cancelling a transferring transfer with
a buffered chunk leaves its ChunkBuffer entry in `receivedChunks` fully
observable — the claim says neither the Transfer nor the ChunkBuffer
remains. -/
theorem c6_counterexample :
    mapGet stC6.activeTransfers "t" = some tP
    ∧ tP.status = TransferStatus.transferring
    ∧ mapGet (cancelTransfer stC6 "t").activeTransfers "t" = none
    ∧ mapGet (cancelTransfer stC6 "t").receivedChunks "t" = some [some [1]] :=
  ⟨rfl, rfl, rfl, rfl⟩

/-- C5 (amended): when a `file-chunk` arrives for an unknown id, the
fallback takes the first registered transfer (in registry insertion order)
whose status is `transferring` — regardless of how many such transfers
exist and regardless of whether chunks are already resolved under its own
id — re-keys it under the incoming id and proceeds with it; when no
transferring transfer exists the chunk is dropped with no state change and
no callback. -/
theorem c5_fallback_first_transferring (st : ServiceState)
    (msg : IncomingChunk) (now : ℚ)
    (habs : mapGet st.activeTransfers msg.transferId = none) :
    ((st.activeTransfers.map (fun p => p.2)).find?
        (fun t => decide (t.status = TransferStatus.transferring)) = none →
      handleIncomingChunk st msg now = (st, []))
    ∧ ∀ tf : FileTransfer,
      (st.activeTransfers.map (fun p => p.2)).find?
        (fun t => decide (t.status = TransferStatus.transferring)) = some tf →
      handleIncomingChunk st msg now =
        processFoundChunk
          ⟨mapSet (mapDelete st.activeTransfers tf.id) msg.transferId
             { tf with id := msg.transferId },
           st.callbackIds, st.receivedChunks⟩
          { tf with id := msg.transferId } msg now := by
  constructor
  · intro hnone
    simp only [handleIncomingChunk]
    rw [habs, hnone]
  · intro tf hfound
    simp only [handleIncomingChunk]
    rw [habs, hfound]

/-- First transferring transfer fixture for the fallback scenarios. -/
def tA5 : FileTransfer :=
  ⟨"a", ⟨"fa", 4096, []⟩, TransferStatus.transferring, 0, 0, 0, [], [], "p"⟩

/-- Second transferring transfer fixture. -/
def tB5 : FileTransfer :=
  ⟨"b", ⟨"fb", 4096, []⟩, TransferStatus.transferring, 0, 0, 0, [], [], "p"⟩

/-- Registry with two transferring transfers and no buffered chunks. -/
def stC5 : ServiceState := ⟨[("a", tA5), ("b", tB5)], [], []⟩

/-- Registry whose only transfer is paused (no fallback candidate). -/
def stC5none : ServiceState :=
  ⟨[("a", withStatus tA5 TransferStatus.paused)], [], []⟩

/-- An orphan chunk message for an unknown transfer id, decryptable with
`tA5`'s (empty) key. -/
def msgC5 : IncomingChunk := ⟨"x", 0, [0], [], [], false⟩

/-- Witness for C5: with no transferring transfer the orphan chunk is
dropped unchanged; with candidates present the first one is processed
re-keyed under the incoming id. -/
theorem c5_witness :
    handleIncomingChunk stC5none msgC5 0 = (stC5none, [])
    ∧ handleIncomingChunk stC5 msgC5 0 =
        processFoundChunk
          ⟨mapSet (mapDelete stC5.activeTransfers tA5.id) msgC5.transferId
             { tA5 with id := msgC5.transferId },
           stC5.callbackIds, stC5.receivedChunks⟩
          { tA5 with id := msgC5.transferId } msgC5 0 :=
  ⟨(c5_fallback_first_transferring stC5none msgC5 0 rfl).1 rfl,
   (c5_fallback_first_transferring stC5 msgC5 0 rfl).2 tA5 rfl⟩

/-- Counterexample to C5 as stated: with two candidates (both transfers
`transferring`, neither holding chunks under its own id) the claim demands
the chunk be dropped — exactly one candidate is required — yet the code
re-keys the first transfer `a` under the incoming id `x` and processes the
chunk: `a` disappears from the registry and `x` appears with the chunk
stored. -/
theorem c5_counterexample :
    ((stC5.activeTransfers.map (fun p => p.2)).filter
        (fun t => decide (t.status = TransferStatus.transferring))).length = 2
    ∧ mapGet stC5.activeTransfers "x" = none
    ∧ mapGet (handleIncomingChunk stC5 msgC5 0).1.activeTransfers "a" = none
    ∧ mapGet (handleIncomingChunk stC5 msgC5 0).1.activeTransfers "x"
        = some (updT { tA5 with id := "x" }
            (receiverTotalChunks tA5.file.size) (fun _ => (0 : ℚ)) 0)
    ∧ mapGet (handleIncomingChunk stC5 msgC5 0).1.receivedChunks "x"
        = some [some []] :=
  ⟨rfl, rfl, rfl, rfl, rfl⟩

/-- C2 (amended): when the receiver processes a decryptable, checksum-valid
`file-chunk` with `isLastChunk` true for a known transfer, it stores the
plaintext and reconstructs by concatenating the stored buffer in index
order. Reconstruction fails — the transfer ends `failed` with the error
callback fired, and the buffer is NOT discarded — exactly when the updated
buffer has a hole, i.e. some index below the highest stored index is
missing. When no hole exists the concatenated bytes go to the download
collaborator, the transfer ends `completed`, the completion callback fires
and the buffer is discarded. (Indices missing above the highest stored
index — in particular trailing indices up to `totalChunks - 1` when the
last-flagged chunk has a smaller index — are not detected; see the
counterexample.) -/
theorem c2_last_chunk_reconstruction (st : ServiceState) (t : FileTransfer)
    (msg : IncomingChunk) (now : ℚ) (plain : List Byte)
    (chunks1 : List (Option (List Byte)))
    (hfind : mapGet st.activeTransfers msg.transferId = some t)
    (hdec : EncryptionService.decrypt msg.encryptedData t.encryptionKey
      msg.iv = some plain)
    (hck : EncryptionService.verifyChecksum plain msg.checksum = true)
    (hlast : msg.isLastChunk = true)
    (hcb : st.callbackIds.contains msg.transferId = true)
    (hch : chunks1 = sparseSet ((mapGet st.receivedChunks
      msg.transferId).getD []) msg.chunkIndex plain) :
    (none ∈ chunks1 →
      handleIncomingChunk st msg now =
        (⟨mapSet st.activeTransfers msg.transferId
            (withStatus (updT t (receiverTotalChunks t.file.size)
              (fun _ => now) msg.chunkIndex) TransferStatus.failed),
          st.callbackIds,
          mapSet st.receivedChunks msg.transferId chunks1⟩,
         [progressEventOf msg.transferId t (receiverTotalChunks t.file.size)
            (fun _ => now) msg.chunkIndex,
          TransferEvent.onError msg.transferId
            ("Failed to process chunk " ++ toString msg.chunkIndex
              ++ ": TypeError: missing chunk")]))
    ∧ (none ∉ chunks1 →
      handleIncomingChunk st msg now =
        (⟨mapSet st.activeTransfers msg.transferId
            (withStatus (updT t (receiverTotalChunks t.file.size)
              (fun _ => now) msg.chunkIndex) TransferStatus.completed),
          st.callbackIds,
          mapDelete (mapSet st.receivedChunks msg.transferId chunks1)
            msg.transferId⟩,
         [progressEventOf msg.transferId t (receiverTotalChunks t.file.size)
            (fun _ => now) msg.chunkIndex,
          TransferEvent.download t.file.name
            (chunks1.flatMap (fun o => o.getD [])),
          TransferEvent.onComplete msg.transferId])) := by
  subst hch
  constructor
  · intro hmem
    simp only [handleIncomingChunk]
    rw [hfind]
    simp only [processFoundChunk]
    rw [hdec]
    simp only [hck, Bool.not_true, Bool.false_eq_true, if_false, hlast,
      if_true, hcb, reconstructFile, mapGet_mapSet_self]
    rw [concatChunks_of_mem _ hmem]
    simp only [handleTransferError, mapGet_mapSet_self, hcb, if_true]
    simp [mapSet_mapSet, withStatus, updT, progressEventOf]
    rw [String.append_assoc]
    rfl
  · intro hmem
    simp only [handleIncomingChunk]
    rw [hfind]
    simp only [processFoundChunk]
    rw [hdec]
    simp only [hck, Bool.not_true, Bool.false_eq_true, if_false, hlast,
      if_true, hcb, reconstructFile, mapGet_mapSet_self]
    rw [concatChunks_of_not_mem _ hmem]
    simp [mapSet_mapSet, withStatus, updT, progressEventOf]

/-- A one-chunk receiving transfer with an empty buffer. -/
def tR1 : FileTransfer :=
  ⟨"r", ⟨"r.bin", 4096, []⟩, TransferStatus.transferring, 0, 0, 0, [], [],
    "p"⟩

/-- Registry holding `tR1`. -/
def stR1 : ServiceState := ⟨[("r", tR1)], ["r"], []⟩

/-- Final chunk 0 of 1 for `tR1`: plaintext `[2]` encrypted under the empty
key and iv. -/
def msgR1 : IncomingChunk := ⟨"r", 0, [2, 2], [], [2], true⟩

/-- A two-chunk receiving transfer with an empty buffer. -/
def tR2 : FileTransfer :=
  ⟨"q", ⟨"q.bin", 8192, []⟩, TransferStatus.transferring, 0, 0, 0, [], [],
    "p"⟩

/-- Registry holding `tR2`. -/
def stR2 : ServiceState := ⟨[("q", tR2)], ["q"], []⟩

/-- Final chunk 1 of 2 for `tR2`, arriving with chunk 0 never received. -/
def msgR2 : IncomingChunk := ⟨"q", 1, [2, 2], [], [2], true⟩

/-- Witness for C2: the hole-free buffer completes with the concatenated
bytes downloaded and the buffer discarded; the buffer with a hole at index
0 fails the transfer and keeps the buffer. -/
theorem c2_witness :
    handleIncomingChunk stR1 msgR1 1000 =
      (⟨mapSet stR1.activeTransfers "r"
          (withStatus (updT tR1 (receiverTotalChunks tR1.file.size)
            (fun _ => (1000 : ℚ)) 0) TransferStatus.completed),
        stR1.callbackIds,
        mapDelete (mapSet stR1.receivedChunks "r" [some [2]]) "r"⟩,
       [progressEventOf "r" tR1 (receiverTotalChunks tR1.file.size)
          (fun _ => (1000 : ℚ)) 0,
        TransferEvent.download "r.bin"
          (([some [2]] : List (Option (List Byte))).flatMap
            (fun o => o.getD [])),
        TransferEvent.onComplete "r"])
    ∧ handleIncomingChunk stR2 msgR2 1000 =
      (⟨mapSet stR2.activeTransfers "q"
          (withStatus (updT tR2 (receiverTotalChunks tR2.file.size)
            (fun _ => (1000 : ℚ)) 1) TransferStatus.failed),
        stR2.callbackIds,
        mapSet stR2.receivedChunks "q" [none, some [2]]⟩,
       [progressEventOf "q" tR2 (receiverTotalChunks tR2.file.size)
          (fun _ => (1000 : ℚ)) 1,
        TransferEvent.onError "q"
          ("Failed to process chunk " ++ toString (1 : Nat)
            ++ ": TypeError: missing chunk")]) :=
  ⟨(c2_last_chunk_reconstruction stR1 tR1 msgR1 1000 [2] [some [2]]
      rfl rfl rfl rfl rfl rfl).2 (by decide),
   (c2_last_chunk_reconstruction stR2 tR2 msgR2 1000 [2] [none, some [2]]
      rfl rfl rfl rfl rfl rfl).1 (by decide)⟩

/-- Two-chunk transfer with only chunk 0 buffered, for the counterexample. -/
def tC2 : FileTransfer :=
  ⟨"c", ⟨"g.bin", 8192, []⟩, TransferStatus.transferring, 0, 0, 0, [], [],
    "p"⟩

/-- Registry holding `tC2` with chunk 0 already stored. -/
def stC2 : ServiceState := ⟨[("c", tC2)], ["c"], [("c", [some [2]])]⟩

/-- A message re-delivering chunk 0 but flagged as the last chunk. -/
def msgC2 : IncomingChunk := ⟨"c", 0, [2, 2], [], [2], true⟩

/-- Counterexample to C2 as stated: `totalChunks = 2` and index 1 of
`[0, totalChunks)` was never stored, yet processing a last-flagged chunk of
index 0 completes the transfer and downloads a truncated single-chunk file
instead of failing with the transfer `failed`. -/
theorem c2_counterexample :
    receiverTotalChunks tC2.file.size = 2
    ∧ (mapGet stC2.receivedChunks "c").getD [] = [some [2]]
    ∧ (handleIncomingChunk stC2 msgC2 0).2 =
        [progressEventOf "c" tC2 2 (fun _ => (0 : ℚ)) 0,
         TransferEvent.download "g.bin" [2],
         TransferEvent.onComplete "c"]
    ∧ mapGet (handleIncomingChunk stC2 msgC2 0).1.activeTransfers "c"
        = some (withStatus (updT tC2 2 (fun _ => (0 : ℚ)) 0)
            TransferStatus.completed) :=
  ⟨rfl, rfl, rfl, rfl⟩

/-- The progress values carried by the `onProgress` events of a trace, in
order. -/
def progressValues (evs : List TransferEvent) : List ℚ :=
  evs.filterMap (fun e => match e with
    | TransferEvent.onProgress _ p _ => some p
    | _ => none)

lemma progressValues_map_progressEventOf (transferId : String)
    (t : FileTransfer) (tc : Nat) (ta : Nat → ℚ) (l : List Nat) :
    progressValues (l.map (progressEventOf transferId t tc ta))
      = l.map (progressOf tc) := by
  induction l with
  | nil => rfl
  | cons j rest ih =>
      simp only [List.map_cons, progressValues, List.filterMap_cons,
        progressEventOf]
      simp only [progressValues] at ih
      rw [ih]

/-- Monotonicity of the progress formula `((j+1)/totalChunks)*100` in the
chunk index (for `totalChunks = 0` the rational division yields 0 on both
sides). -/
lemma progressOf_mono (T : Nat) {i j : Nat} (hij : i ≤ j) :
    progressOf T i ≤ progressOf T j := by
  unfold progressOf
  by_cases hT : (T : ℚ) = 0
  · simp [hT]
  · have hT' : 0 < (T : ℚ) := by
      have : T ≠ 0 := fun h => hT (by rw [h]; simp)
      exact_mod_cast Nat.pos_of_ne_zero this
    have h1 : ((i + 1 : Nat) : ℚ) ≤ ((j + 1 : Nat) : ℚ) := by
      exact_mod_cast Nat.succ_le_succ hij
    have h2 : ((i + 1 : Nat) : ℚ) / (T : ℚ) ≤ ((j + 1 : Nat) : ℚ) / (T : ℚ) :=
      (div_le_div_iff_of_pos_right hT').mpr h1
    have h100 : (0 : ℚ) ≤ 100 := by norm_num
    exact mul_le_mul_of_nonneg_right h2 h100

/-- The computed transfer speed is never negative. -/
lemma calculateTransferSpeed_nonneg (t : FileTransfer) (now : ℚ) (b : Nat) :
    0 ≤ calculateTransferSpeed t now b := by
  unfold calculateTransferSpeed
  by_cases h : 0 < (now - t.startTime) / 1000
  · simp only [h, if_true]
    exact div_nonneg (Nat.cast_nonneg b) (le_of_lt h)
  · simp [h]

/-- The receiver's processing of a decryptable, checksum-valid, non-final
chunk for a known transfer: stores the plaintext at its index and sets
`progress = ((chunkIndex+1)/totalChunks)*100` and the recomputed speed. -/
lemma handleIncomingChunk_step (st : ServiceState) (t : FileTransfer)
    (msg : IncomingChunk) (now : ℚ) (plain : List Byte)
    (chunks1 : List (Option (List Byte)))
    (hfind : mapGet st.activeTransfers msg.transferId = some t)
    (hdec : EncryptionService.decrypt msg.encryptedData t.encryptionKey
      msg.iv = some plain)
    (hck : EncryptionService.verifyChecksum plain msg.checksum = true)
    (hlast : msg.isLastChunk = false)
    (hcb : st.callbackIds.contains msg.transferId = true)
    (hch : chunks1 = sparseSet ((mapGet st.receivedChunks
      msg.transferId).getD []) msg.chunkIndex plain) :
    handleIncomingChunk st msg now =
      (⟨mapSet st.activeTransfers msg.transferId
          (updT t (receiverTotalChunks t.file.size) (fun _ => now)
            msg.chunkIndex),
        st.callbackIds,
        mapSet st.receivedChunks msg.transferId chunks1⟩,
       [progressEventOf msg.transferId t (receiverTotalChunks t.file.size)
          (fun _ => now) msg.chunkIndex]) := by
  subst hch
  simp only [handleIncomingChunk]
  rw [hfind]
  simp only [processFoundChunk]
  rw [hdec]
  simp only [hck, Bool.not_true, Bool.false_eq_true, if_false, hlast,
    hcb, if_true]
  simp [updT, progressEventOf]

/-- C9 (amended): the computed `speed` is always nonnegative; the progress
formula `((j+1)/totalChunks)*100` is monotone in the chunk index, so sender
progress — which walks indices in ascending order — is monotone
non-decreasing within a clean `sendFileChunks` run, and receiver progress is
monotone exactly when chunk indices arrive in non-decreasing order: each
received chunk sets `progress` to the formula at its own `chunkIndex`
(last conjunct), so an out-of-order arrival lowers it (see the
counterexample). -/
theorem c9_speed_nonneg_progress_monotone :
    (∀ (t : FileTransfer) (now : ℚ) (b : Nat),
      0 ≤ calculateTransferSpeed t now b)
    ∧ (∀ (T : Nat) {i j : Nat}, i ≤ j → progressOf T i ≤ progressOf T j)
    ∧ (∀ (st : ServiceState) (transferId : String) (t0 : FileTransfer)
        (sendFn : WireMessage → Bool) (pausedObs : Nat → Bool)
        (ivFor : Nat → List Byte) (timeAt : Nat → ℚ),
        mapGet st.activeTransfers transferId = some t0 →
        st.callbackIds.contains transferId = true →
        (∀ m, sendFn m = true) →
        (∀ j, pausedObs j = false) →
        List.Pairwise (· ≤ ·) (progressValues
          (sendFileChunks st transferId sendFn pausedObs ivFor
            timeAt).events))
    ∧ (∀ (st : ServiceState) (t : FileTransfer) (msg : IncomingChunk)
        (now : ℚ) (plain : List Byte) (chunks1 : List (Option (List Byte))),
        mapGet st.activeTransfers msg.transferId = some t →
        EncryptionService.decrypt msg.encryptedData t.encryptionKey msg.iv
          = some plain →
        EncryptionService.verifyChecksum plain msg.checksum = true →
        msg.isLastChunk = false →
        st.callbackIds.contains msg.transferId = true →
        chunks1 = sparseSet ((mapGet st.receivedChunks
          msg.transferId).getD []) msg.chunkIndex plain →
        handleIncomingChunk st msg now =
          (⟨mapSet st.activeTransfers msg.transferId
              (updT t (receiverTotalChunks t.file.size) (fun _ => now)
                msg.chunkIndex),
            st.callbackIds,
            mapSet st.receivedChunks msg.transferId chunks1⟩,
           [progressEventOf msg.transferId t
              (receiverTotalChunks t.file.size) (fun _ => now)
              msg.chunkIndex])) := by
  refine ⟨calculateTransferSpeed_nonneg, fun T _ _ h => progressOf_mono T h,
    ?_, handleIncomingChunk_step⟩
  intro st transferId t0 sendFn pausedObs ivFor timeAt hfind hcb hsend hpause
  rw [sendFileChunks_clean_spec st transferId t0 sendFn pausedObs ivFor
    timeAt hfind hcb hsend hpause]
  show List.Pairwise (· ≤ ·) (progressValues
    ((List.range (senderTotalChunks t0.file.size)).map
        (progressEventOf transferId t0 (senderTotalChunks t0.file.size)
          timeAt)
      ++ [TransferEvent.onComplete transferId]))
  have h1 := progressValues_map_progressEventOf transferId t0
    (senderTotalChunks t0.file.size) timeAt
    (List.range (senderTotalChunks t0.file.size))
  simp only [progressValues, List.filterMap_append, List.filterMap_cons,
    List.filterMap_nil, List.append_nil] at h1 ⊢
  rw [h1, List.range_eq_range']
  refine List.Pairwise.map _ (fun a b hab => ?_)
    (List.pairwise_lt_range' 0 _)
  exact progressOf_mono _ (Nat.le_of_lt hab)

/-- Four-chunk receiving transfer (12289 bytes) with an empty buffer. -/
def tC9 : FileTransfer :=
  ⟨"m", ⟨"m.bin", 12289, []⟩, TransferStatus.transferring, 0, 0, 0, [], [],
    "p"⟩

/-- Registry holding `tC9`. -/
def stC9 : ServiceState := ⟨[("m", tC9)], ["m"], []⟩

/-- Chunk 2 of 4 (empty plaintext, empty key and iv), not the last chunk. -/
def m1C9 : IncomingChunk := ⟨"m", 2, [0], [], [], false⟩

/-- Chunk 0 of 4, arriving after chunk 2. -/
def m2C9 : IncomingChunk := ⟨"m", 0, [0], [], [], false⟩

/-- Witness for C9 at concrete inputs: a concrete nonnegative speed, a
concrete progress comparison, a concrete clean sender run with sorted
progress values, and a concrete received chunk setting the progress
formula. -/
theorem c9_witness :
    (0 : ℚ) ≤ calculateTransferSpeed tOne 1000 4096
    ∧ progressOf 4 1 ≤ progressOf 4 2
    ∧ List.Pairwise (· ≤ ·) (progressValues
        (sendFileChunks stOne "t" (fun _ => true) (fun _ => false)
          (fun _ => []) (fun _ => 1000)).events)
    ∧ handleIncomingChunk stC9 m1C9 0 =
        (⟨mapSet stC9.activeTransfers "m"
            (updT tC9 (receiverTotalChunks tC9.file.size) (fun _ => (0 : ℚ))
              2),
          stC9.callbackIds,
          mapSet stC9.receivedChunks "m" [none, none, some []]⟩,
         [progressEventOf "m" tC9 (receiverTotalChunks tC9.file.size)
            (fun _ => (0 : ℚ)) 2]) :=
  ⟨c9_speed_nonneg_progress_monotone.1 tOne 1000 4096,
   c9_speed_nonneg_progress_monotone.2.1 4 (by decide),
   c9_speed_nonneg_progress_monotone.2.2.1 stOne "t" tOne (fun _ => true)
     (fun _ => false) (fun _ => []) (fun _ => 1000) rfl rfl (fun _ => rfl)
     (fun _ => rfl),
   c9_speed_nonneg_progress_monotone.2.2.2 stC9 tC9 m1C9 0 []
     [none, none, some []] rfl rfl rfl rfl rfl rfl⟩

/-- Counterexample to C9 as stated: on the receiver path with out-of-order
arrival, processing chunk 2 sets `progress = progressOf 4 2` (75) and the
subsequent chunk 0 lowers it to `progressOf 4 0` (25) while the status stays
`transferring` — receiver progress is not monotone under out-of-order
arrival. -/
theorem c9_counterexample :
    receiverTotalChunks tC9.file.size = 4
    ∧ mapGet (handleIncomingChunk stC9 m1C9 0).1.activeTransfers "m"
        = some (updT tC9 4 (fun _ => (0 : ℚ)) 2)
    ∧ mapGet (handleIncomingChunk (handleIncomingChunk stC9 m1C9 0).1
          m2C9 0).1.activeTransfers "m"
        = some (updT tC9 4 (fun _ => (0 : ℚ)) 0)
    ∧ (updT tC9 4 (fun _ => (0 : ℚ)) 2).status = TransferStatus.transferring
    ∧ (updT tC9 4 (fun _ => (0 : ℚ)) 0).status = TransferStatus.transferring
    ∧ progressOf 4 0 < progressOf 4 2 := by
  refine ⟨rfl, rfl, rfl, rfl, rfl, ?_⟩
  unfold progressOf
  norm_num

end GhostPeer
